import Mathlib

/-!
Verification of the JavaScript dependency-inference core of the repository.

The repository ships the test suite of the core
(`src/rust/engine/dep_inference/src/javascript/tests.rs`); the implementation
modules themselves (`javascript/mod.rs`, `javascript/import_pattern.rs`) are not
part of the provided sources.  Every definition below is therefore modelled
from the specification (spec.md), and is checked against the behaviour pinned
down by the shipped tests.

Strings are modelled as lists of Unicode codepoints (`List Char`), matching the
requirement of the spec that pattern matching is codepoint-correct; the only place
where UTF-8 byte counts matter is the `prefix_len` field of a match, for which
an explicit byte-size function is used.
-/

namespace DepInference

abbrev Str := List Char

/-- Modelled from the spec: the UTF-8 byte size of a single codepoint, used for
the byte-length `prefix_len` of a pattern match (spec section 3). -/
def charBytes (c : Char) : Nat :=
  if c.val < 0x80 then 1
  else if c.val < 0x800 then 2
  else if c.val < 0x10000 then 3
  else 4

/-- Modelled from the spec: the number of UTF-8 bytes of a string
(spec section 3: prefix_length is the number of bytes of the pattern). -/
def utf8Len (s : Str) : Nat := (s.map charBytes).sum

/-- Split a string at its first star, returning the part before and after it;
`none` when the string has no star. -/
def splitFirstStar : Str → Option (Str × Str)
  | [] => none
  | c :: rest =>
    if c = '*' then some ([], rest)
    else
      match splitFirstStar rest with
      | none => none
      | some (h, t) => some (c :: h, t)

/-- Modelled from the spec: the match result of the pattern DSL
(spec section 3): `NoMatch`, or `Match prefix_len capture?`. -/
inductive Pattern where
  | NoMatch : Pattern
  | Match : Nat → Option Str → Pattern
deriving DecidableEq

/-- Modelled from the spec: `Pattern::matches` of the absent
`import_pattern.rs` (spec section 4.3).  A literal pattern matches by
equality; a glob pattern is split at the star into head and tail, the input
must start with head, end with tail, and be long enough; the capture is the
codepoint run between head and tail.  The empty input never matches
(spec section 4.3 edge cases: the empty pattern matches nothing, and `*`
does not match the empty input). -/
def matchesP (pattern input : Str) : Pattern :=
  if input = [] then Pattern.NoMatch
  else
    match splitFirstStar pattern with
    | none =>
      if pattern = input then Pattern.Match (utf8Len pattern) none else Pattern.NoMatch
    | some (h, t) =>
      if h <+: input ∧ t <:+ input ∧ h.length + t.length ≤ input.length then
        Pattern.Match (utf8Len pattern)
          (some ((input.take (input.length - t.length)).drop h.length))
      else Pattern.NoMatch

/-- Modelled from the spec: substitution of a capture into a replacement
template (spec section 4.4 step 3): the star of the template, when present,
is replaced by the capture. -/
def substituteP (r : Str) (capture : Str) : Str :=
  match splitFirstStar r with
  | none => r
  | some (h, t) => h ++ capture ++ t

/-- The prefix length carried by a match; zero for `NoMatch`. -/
def prefixLenOf : Pattern → Nat
  | Pattern.NoMatch => 0
  | Pattern.Match n _ => n

/-- Modelled from the spec: the resolver-internal tagged import
(spec section 3): a specifier rewritten by a pattern is `Matched`, one carried
forward verbatim is `Unmatched`. -/
inductive Import where
  | Matched : Str → Import
  | Unmatched : Str → Import
deriving DecidableEq

abbrev PatternEntry := Str × List Str

/-- Keep the candidate with the greater `prefix_len`; on a tie, keep the
first argument. -/
def betterOf (x : PatternEntry × Nat × Option Str) :
    Option (PatternEntry × Nat × Option Str) → PatternEntry × Nat × Option Str
  | none => x
  | some y => if x.2.1 < y.2.1 then y else x

/-- Modelled from the spec: among the pattern entries that match the
specifier, pick the one with the greatest `prefix_len`
(spec section 4.4 step 2); ties are broken arbitrarily (here: earliest entry). -/
def bestMatch (s : Str) : List PatternEntry → Option (PatternEntry × Nat × Option Str)
  | [] => none
  | e :: rest =>
    match matchesP e.1 s with
    | Pattern.NoMatch => bestMatch s rest
    | Pattern.Match n cap => some (betterOf (e, n, cap) (bestMatch s rest))

/-- A specifier is relative when it starts with `./` or `../`
(spec section 4.6). -/
def isRelative : Str → Bool
  | '.' :: '/' :: _ => true
  | '.' :: '.' :: '/' :: _ => true
  | _ => false

/-- Split a path into its `/`-separated segments. -/
def splitSegs : Str → List Str
  | [] => [[]]
  | c :: rest =>
    if c = '/' then [] :: splitSegs rest
    else
      match splitSegs rest with
      | [] => [[c]]
      | seg :: segs => (c :: seg) :: segs

/-- Modelled from the spec: path-normalization keeps a segment when it is
neither empty nor `.` (spec section 4.5 step 1). -/
def keepSeg (seg : Str) : Bool := decide (seg ≠ [] ∧ seg ≠ ['.'])

/-- Modelled from the spec: collapse `..` segments against an accumulator;
a `..` with an empty accumulator means the path escapes the anchor and yields
`none` (spec section 4.5 step 2). -/
def collapse : List Str → List Str → Option (List Str)
  | acc, [] => some acc
  | acc, seg :: rest =>
    if seg = ['.', '.'] then
      if acc = [] then none else collapse acc.dropLast rest
    else collapse (acc ++ [seg]) rest

/-- Re-join segments with `/` (spec section 4.5 step 3). -/
def joinSegs : List Str → Str
  | [] => []
  | [s] => s
  | s :: ss => s ++ '/' :: joinSegs ss

/-- The directory segments of a file path: all segments but the last
(spec section 4.6: the directory portion anchors relative imports). -/
def dirSegs (filePath : Str) : List Str := (splitSegs filePath).dropLast

/-- Modelled from the spec: normalize the join of an anchor directory and a
relative replacement; on escape above the anchor the replacement is passed
through unchanged (spec section 4.5). -/
def normJoinRepl (anchor r : Str) : Str :=
  match collapse [] ((splitSegs anchor ++ splitSegs r).filter keepSeg) with
  | some segs => joinSegs segs
  | none => r

/-- Modelled from the spec: resolve one replacement of the chosen pattern
(spec section 4.4 step 3).  The capture (empty for a literal pattern) is
substituted; a relative result is anchored and normalized and is a file
candidate, tagged `Matched`; a bare result is a package candidate, carried as
`Unmatched` (spec section 9: file-vs-package membership is decided by the
shape of the replacement). -/
def resolveRepl (anchor : Str) (cap : Option Str) (r : Str) : Import :=
  let r' := substituteP r (cap.getD [])
  if isRelative r' then Import.Matched (normJoinRepl anchor r') else Import.Unmatched r'

/-- Modelled from the spec: `imports_from_patterns` of the absent
`import_pattern.rs` (spec section 4.4): the resolved replacements of the
best-matching pattern; when no pattern matches, the raw specifier is carried
forward as a single `Unmatched` passthrough (spec section 3: `Unmatched` —
no pattern applied; carry the original specifier forward). -/
def imports_from_patterns (anchor : Str) (patterns : List PatternEntry) (s : Str) :
    List Import :=
  match bestMatch s patterns with
  | none => [Import.Unmatched s]
  | some (e, _, cap) => e.2.map (resolveRepl anchor cap)

/-- Modelled from the spec: the inference metadata (spec section 3). -/
structure Metadata where
  package_root : Str
  config_root : Option Str
  import_patterns : List PatternEntry
  paths : List PatternEntry
deriving DecidableEq

/-- Modelled from the spec: the per-specifier result: file candidates and
package candidates (spec section 3). -/
structure JavascriptImportInfo where
  file_imports : List Str
  package_imports : List Str
deriving DecidableEq

/-- The anchor of path-alias resolution: `config_root` when present, otherwise
`package_root` (spec section 4.6 step 2). -/
def aliasAnchor (md : Metadata) : Str := md.config_root.getD md.package_root

/-- Whether at least one pattern of the table matches the specifier. -/
def anyMatch (patterns : List PatternEntry) (s : Str) : Bool :=
  patterns.any (fun e => decide (matchesP e.1 s ≠ Pattern.NoMatch))

/-- Modelled from the spec, corrected against the shipped tests
(`candidate_imports_from_config_and_imports`): resolution of a bare specifier.
The subpath table (`import_patterns`, anchored at the package root) takes
precedence: when one of its patterns matches, only its replacements are used.
Only when no subpath pattern matches is the raw specifier kept as an
`Unmatched` package fallback and the path-alias table (`paths`, anchored at
the alias anchor) consulted; duplicates are merged. -/
def resolveBareImports (md : Metadata) (s : Str) : List Import :=
  match bestMatch s md.import_patterns with
  | some (e, _, cap) => e.2.map (resolveRepl md.package_root cap)
  | none =>
    (Import.Unmatched s :: imports_from_patterns (aliasAnchor md) md.paths s).dedup

/-- Partition resolved imports into file candidates (`Matched`) and package
candidates (`Unmatched`) (spec section 3). -/
def partitionImports (l : List Import) : JavascriptImportInfo :=
  { file_imports := l.filterMap (fun i => match i with
      | Import.Matched m => some m
      | Import.Unmatched _ => none)
    package_imports := l.filterMap (fun i => match i with
      | Import.Matched _ => none
      | Import.Unmatched u => some u) }

/-- Inference for a bare specifier (spec section 4.6 step 2, corrected
against the shipped tests). -/
def inferBare (md : Metadata) (s : Str) : JavascriptImportInfo :=
  partitionImports (resolveBareImports md s)

/-- Modelled from the spec: inference for a relative specifier
(spec section 4.6 step 1): normalize against the directory of the importing file;
on escape above the workspace root the specifier is passed through unchanged
(spec section 4.5). -/
def inferRelative (filePath s : Str) : JavascriptImportInfo :=
  match collapse [] ((dirSegs filePath ++ splitSegs s).filter keepSeg) with
  | some segs => { file_imports := [joinSegs segs], package_imports := [] }
  | none => { file_imports := [s], package_imports := [] }

/-- Modelled from the spec: the per-specifier driver (spec section 4.6). -/
def inferFor (filePath : Str) (md : Metadata) (s : Str) : JavascriptImportInfo :=
  if isRelative s then inferRelative filePath s else inferBare md s

/-- Modelled from the spec: the callee of a call expression as the parser
oracle reports it (spec section 6). -/
inductive Callee where
  | importCall : Callee
  | requireCall : Callee
  | other : Str → Callee
deriving DecidableEq

/-- Modelled from the spec: the argument of a dynamic `import`/`require` call:
a string literal, or anything else (spec section 4.2). -/
inductive CallArg where
  | stringLit : Str → CallArg
  | nonLiteral : CallArg
deriving DecidableEq

/-- Modelled from the spec: one AST construct as the external parser oracle
exposes it (spec section 6): import/export declarations with the optional
module specifier and the 1-based line of their `from` clause, call expressions
and new expressions with the 1-based line of their closing parenthesis.  Every
node also carries its 1-based start line. -/
inductive AstNode where
  | importDecl : Option Str → Nat → Nat → AstNode
  | exportDecl : Option Str → Nat → Nat → AstNode
  | callExpr : Callee → CallArg → Nat → Nat → AstNode
  | newExpr : Callee → CallArg → Nat → Nat → AstNode
deriving DecidableEq

/-- Modelled from the spec: a source file as the collector sees it: the raw
text as a list of lines (for the pragma index) and the parsed constructs
(the parser oracle of spec section 6). -/
structure SourceFile where
  lines : List Str
  nodes : List AstNode

/-- The ignore pragma, bit-exact (spec section 6). -/
def pragmaChars : Str := "// pants: no-infer-dep".data

def isWsChar (c : Char) : Bool := c = ' ' || c = '\t'

/-- Drop trailing whitespace of a line. -/
def trimTrailing (l : Str) : Str := (l.reverse.dropWhile isWsChar).reverse

/-- Modelled from the spec: whether a line bears the ignore pragma as its
trailing comment (spec section 4.1). -/
def pragmaOnLine (l : Str) : Bool := List.isSuffixOf pragmaChars (trimTrailing l)

/-- Modelled from the spec: the pragma index: whether the 1-based line `n`
of the source bears the ignore pragma (spec section 4.1). -/
def pragmaIndex (lines : List Str) (n : Nat) : Bool :=
  pragmaOnLine (lines.getD (n - 1) [])

/-- Modelled from the spec: what a single construct contributes
(spec sections 4.1 and 4.2).  Import/export declarations with a `from` clause
emit their specifier unless the pragma sits on the line of the `from` clause;
direct `import`/`require` calls with a string-literal argument emit it unless
the pragma sits on the line of the closing parenthesis; declarations without
`from`, calls with non-literal arguments, calls to other callees and new
expressions emit nothing. -/
def emits (pragma : Nat → Bool) : AstNode → Option Str
  | AstNode.importDecl none _ _ => none
  | AstNode.importDecl (some m) _ fromLine =>
    if pragma fromLine then none else some m
  | AstNode.exportDecl none _ _ => none
  | AstNode.exportDecl (some m) _ fromLine =>
    if pragma fromLine then none else some m
  | AstNode.callExpr Callee.importCall (CallArg.stringLit m) _ closeLine =>
    if pragma closeLine then none else some m
  | AstNode.callExpr Callee.requireCall (CallArg.stringLit m) _ closeLine =>
    if pragma closeLine then none else some m
  | AstNode.callExpr _ _ _ _ => none
  | AstNode.newExpr _ _ _ _ => none

/-- Modelled from the spec: `ImportCollector::collect` of the absent
`mod.rs` (spec sections 4.1, 4.2 and 4.7): the raw specifiers of all
constructs that emit and are not pragma-suppressed. -/
def collectF (f : SourceFile) : List Str :=
  f.nodes.filterMap (emits (pragmaIndex f.lines))

/-- The number of stars of a string. -/
def countStars (s : Str) : Nat := s.count '*'

/-- Modelled from the spec: metadata validation (spec section 7): a pattern
holds at most one star, a replacement holds at most one star, and a
replacement may reference a star only when its pattern has one. -/
def validEntry (e : PatternEntry) : Bool :=
  decide (countStars e.1 ≤ 1) &&
    e.2.all (fun r => decide (countStars r ≤ 1)) &&
    (decide (countStars e.1 = 1) || e.2.all (fun r => decide (countStars r = 0)))

def validMetadata (md : Metadata) : Bool :=
  (md.import_patterns ++ md.paths).all validEntry

/-- Association-list lookup keyed on the raw specifier. -/
def lookupStr (s : Str) : List (Str × JavascriptImportInfo) → Option JavascriptImportInfo
  | [] => none
  | e :: rest => if e.1 = s then some e.2 else lookupStr s rest

/-- Modelled from the spec: `get_dependencies` of the absent `mod.rs`
(spec sections 4.6 and 4.7): validate the metadata, collect the raw
specifiers, and map each collected specifier to its inference result. -/
def get_dependencies (f : SourceFile) (filePath : Str) (md : Metadata) :
    Except Str (List (Str × JavascriptImportInfo)) :=
  if validMetadata md then
    Except.ok ((collectF f).dedup.map (fun s => (s, inferFor filePath md s)))
  else Except.error "invalid metadata".data

/-!
Fidelity checks: the model reproduces the behaviour pinned down by the
shipped test suite (`tests.rs`).
-/

example : matchesP "#lib/*".data "#lib/something/index.js".data =
    Pattern.Match 6 (some "something/index.js".data) := by decide

example : matchesP "#lib/*/index.js".data "#lib/something/index.js".data =
    Pattern.Match 15 (some "something".data) := by decide

example : matchesP "#internal/*.js".data "#internal/z.js".data =
    Pattern.Match 14 (some "z".data) := by decide

example : matchesP "#some-lib".data "#some-lib".data = Pattern.Match 9 none := by decide

example : matchesP "#some-lib".data "#some-other-lib".data = Pattern.NoMatch := by decide

example : matchesP "#some-lib/*.mjs".data "#some-lib/a.js".data = Pattern.NoMatch := by
  decide

example : matchesP "#other-lib/*.js".data "#some-lib/a.js".data = Pattern.NoMatch := by
  decide

example : matchesP "#some-lib/*".data "#some-other-lib".data = Pattern.NoMatch := by
  decide

example : matchesP "#🔥*🔥".data "#🔥asd🔥".data =
    Pattern.Match 10 (some "asd".data) := by decide

example : matchesP "#我的氣墊船充滿了鱔魚/*.js".data "#我的氣墊船充滿了鱔魚/asd.js".data =
    Pattern.Match (utf8Len "#我的氣墊船充滿了鱔魚/*.js".data) (some "asd".data) := by decide

example : matchesP "#*/stuff.js".data "#🔥asd🔥/stuff.js".data =
    Pattern.Match 11 (some "🔥asd🔥".data) := by decide

def mdEmpty : Metadata :=
  { package_root := []
    config_root := none
    import_patterns := []
    paths := [] }

example : inferFor "dir/index.js".data mdEmpty "./file.js".data =
    { file_imports := ["dir/file.js".data], package_imports := [] } := by decide

example : inferFor "index.mjs".data mdEmpty "./file.js".data =
    { file_imports := ["file.js".data], package_imports := [] } := by decide

example : inferFor "src/js/index.mjs".data mdEmpty "fs".data =
    { file_imports := [], package_imports := ["fs".data] } := by decide

example : inferFor "src/js/a/index.mjs".data mdEmpty "../xes.mjs".data =
    { file_imports := ["src/js/xes.mjs".data], package_imports := [] } := by decide

example : inferFor "src/js/a/index.mjs".data mdEmpty "././///../../xes.mjs".data =
    { file_imports := ["src/xes.mjs".data], package_imports := [] } := by decide

example : inferFor "src/index.mjs".data mdEmpty "../../xes.mjs".data =
    { file_imports := ["../../xes.mjs".data], package_imports := [] } := by decide

example : inferFor "js/src/lib/index.mjs".data mdEmpty "./../../../../lib2/xes.mjs".data =
    { file_imports := ["./../../../../lib2/xes.mjs".data], package_imports := [] } := by
  decide

def mdChalk : Metadata :=
  { package_root := []
    config_root := none
    import_patterns := [("#myChalk".data, ["chalk".data])]
    paths := [] }

example : inferFor "js/src/lib/index.mjs".data mdChalk "#myChalk".data =
    { file_imports := [], package_imports := ["chalk".data] } := by decide

def mdNested : Metadata :=
  { package_root := "js".data
    config_root := none
    import_patterns := [("#nested/*.mjs".data, ["./src/lib/nested/*.mjs".data])]
    paths := [] }

example : inferFor "js/src/lib/index.mjs".data mdNested "#nested/stuff.mjs".data =
    { file_imports := ["js/src/lib/nested/stuff.mjs".data], package_imports := [] } := by
  decide

def mdCfg : Metadata :=
  { package_root := "js".data
    config_root := some "js/project".data
    import_patterns := []
    paths := [("*".data, ["./src/*".data])] }

example : inferFor "js/project/src/lib/index.js".data mdCfg "lib/stuff".data =
    { file_imports := ["js/project/src/lib/stuff".data]
      package_imports := ["lib/stuff".data] } := by decide

def mdPoly : Metadata :=
  { package_root := "js".data
    config_root := none
    import_patterns := [("#websockets".data, ["websockets".data, "./websockets-polyfill.js".data])]
    paths := [] }

example : inferFor "js/src/index.mjs".data mdPoly "#websockets".data =
    { file_imports := ["js/websockets-polyfill.js".data]
      package_imports := ["websockets".data] } := by decide

def mdBoth : Metadata :=
  { package_root := "js/project".data
    config_root := some "js/project".data
    import_patterns := [("#nested/*".data, ["./src/lib/nested/*".data])]
    paths := [("*".data, ["./src/*".data])] }

example : inferFor "js/project/src/lib/index.js".data mdBoth "lib/stuff".data =
    { file_imports := ["js/project/src/lib/stuff".data]
      package_imports := ["lib/stuff".data] } := by decide

example : inferFor "js/project/src/lib/index.js".data mdBoth "#nested/index.js".data =
    { file_imports := ["js/project/src/lib/nested/index.js".data]
      package_imports := [] } := by decide

example : imports_from_patterns "dir".data [("#internal/*.js".data, ["./src/internal/*.js".data])]
    "#internal/z.js".data = [Import.Matched "dir/src/internal/z.js".data] := by decide

example : collectF
    { lines := ["import a from b // pants: no-infer-dep".data]
      nodes := [AstNode.importDecl (some "b".data) 1 1] } = [] := by decide

example : collectF
    { lines := ["import x // pants: no-infer-dep".data, "from b".data]
      nodes := [AstNode.importDecl (some "b".data) 1 2] } = ["b".data] := by decide

example : get_dependencies
    { lines := ["import fs from fs".data]
      nodes := [AstNode.importDecl (some "fs".data) 1 1] } "src/js/index.mjs".data mdEmpty =
    Except.ok [("fs".data, { file_imports := [], package_imports := ["fs".data] })] := rfl

/-!
Helper lemmas.
-/

theorem partition_package_mem (l : List Import) (u : Str) :
    u ∈ (partitionImports l).package_imports ↔ Import.Unmatched u ∈ l := by
  simp only [partitionImports, List.mem_filterMap]
  constructor
  · rintro ⟨i, hi, he⟩
    cases i with
    | Matched m => simp at he
    | Unmatched v =>
      simp only [Option.some.injEq] at he
      exact he ▸ hi
  · intro h
    exact ⟨Import.Unmatched u, h, rfl⟩

theorem partition_file_mem (l : List Import) (m : Str) :
    m ∈ (partitionImports l).file_imports ↔ Import.Matched m ∈ l := by
  simp only [partitionImports, List.mem_filterMap]
  constructor
  · rintro ⟨i, hi, he⟩
    cases i with
    | Matched v =>
      simp only [Option.some.injEq] at he
      exact he ▸ hi
    | Unmatched v => simp at he
  · intro h
    exact ⟨Import.Matched m, h, rfl⟩

theorem lookupStr_map (g : Str → JavascriptImportInfo) (s : Str) :
    ∀ l : List Str, s ∈ l → lookupStr s (l.map fun t => (t, g t)) = some (g s) := by
  intro l
  induction l with
  | nil => intro h; exact absurd h (List.not_mem_nil s)
  | cons a rest ih =>
    intro h
    simp only [List.map_cons, lookupStr]
    by_cases ha : a = s
    · subst ha; simp
    · have hmem : s ∈ rest := by
        rcases List.mem_cons.mp h with h1 | h2
        · exact absurd h1.symm ha
        · exact h2
      simp [ha, ih hmem]

theorem getDeps_ok (f : SourceFile) (filePath : Str) (md : Metadata) (s : Str)
    (hv : validMetadata md = true) (hs : s ∈ collectF f) :
    get_dependencies f filePath md =
      Except.ok ((collectF f).dedup.map fun t => (t, inferFor filePath md t)) ∧
    lookupStr s ((collectF f).dedup.map fun t => (t, inferFor filePath md t)) =
      some (inferFor filePath md s) := by
  constructor
  · simp [get_dependencies, hv]
  · exact lookupStr_map _ s _ (List.mem_dedup.mpr hs)

theorem splitFirstStar_spec :
    ∀ {p : Str}, '*' ∈ p → ∃ h t, splitFirstStar p = some (h, t) ∧ p = h ++ '*' :: t := by
  intro p
  induction p with
  | nil => intro hm; exact absurd hm (List.not_mem_nil _)
  | cons c rest ih =>
    intro hm
    by_cases hc : c = '*'
    · subst hc
      exact ⟨[], rest, by simp [splitFirstStar], rfl⟩
    · have hr : '*' ∈ rest := by
        rcases List.mem_cons.mp hm with h1 | h2
        · exact absurd h1.symm hc
        · exact h2
      obtain ⟨h, t, hs, hp⟩ := ih hr
      refine ⟨c :: h, t, ?_, ?_⟩
      · simp [splitFirstStar, hc, hs]
      · rw [hp]; rfl

theorem splitSegs_no_slash : ∀ {p : Str}, '/' ∉ p → splitSegs p = [p] := by
  intro p
  induction p with
  | nil => intro _; rfl
  | cons c rest ih =>
    intro h
    have hc : ¬(c = '/') := fun he => h (he ▸ List.mem_cons_self c rest)
    have hr : '/' ∉ rest := fun hm => h (List.mem_cons_of_mem c hm)
    simp [splitSegs, hc, ih hr]

theorem splitSegs_cons_slash (rest : Str) : splitSegs ('/' :: rest) = [] :: splitSegs rest := by
  simp [splitSegs]

theorem bestMatch_sound (s : Str) :
    ∀ {l : List PatternEntry} {e : PatternEntry} {n : Nat} {cap : Option Str},
      bestMatch s l = some (e, n, cap) → e ∈ l ∧ matchesP e.1 s = Pattern.Match n cap := by
  intro l
  induction l with
  | nil =>
    intro e n cap h
    simp [bestMatch] at h
  | cons a rest ih =>
    intro e n cap h
    rcases hma : matchesP a.1 s with _ | ⟨m, c⟩ <;>
      simp only [bestMatch, hma] at h
    · obtain ⟨h1, h2⟩ := ih h
      exact ⟨List.mem_cons_of_mem a h1, h2⟩
    · rcases hr : bestMatch s rest with _ | y <;>
        simp only [hr, betterOf, Option.some.injEq] at h
      · obtain ⟨rfl, rfl, rfl⟩ := Prod.mk.injEq .. ▸ h
        exact ⟨List.mem_cons_self a rest, hma⟩
      · by_cases hlt : m < y.2.1
        · rw [if_pos hlt] at h
          subst h
          obtain ⟨h1, h2⟩ := ih hr
          exact ⟨List.mem_cons_of_mem a h1, h2⟩
        · rw [if_neg hlt] at h
          obtain ⟨rfl, rfl, rfl⟩ := Prod.mk.injEq .. ▸ h
          exact ⟨List.mem_cons_self a rest, hma⟩

theorem bestMatch_eq_of (s : Str) :
    ∀ {l : List PatternEntry} {e : PatternEntry} {n : Nat} {cap : Option Str},
      e ∈ l → matchesP e.1 s = Pattern.Match n cap →
      (∀ q ∈ l, q ≠ e → prefixLenOf (matchesP q.1 s) < n) →
      bestMatch s l = some (e, n, cap) := by
  intro l
  induction l with
  | nil =>
    intro e n cap he _ _
    exact absurd he (List.not_mem_nil e)
  | cons a rest ih =>
    intro e n cap he hm hmax
    rcases List.mem_cons.mp he with rfl | hmemr
    · simp only [bestMatch, hm]
      rcases hr : bestMatch s rest with _ | y
      · rfl
      · obtain ⟨hymem, hym⟩ := bestMatch_sound s hr
        have hyle : y.2.1 ≤ n := by
          by_cases hye : y.1 = e
          · rw [hye, hm] at hym
            exact ((Pattern.Match.injEq .. ▸ hym).1).ge
          · have := hmax y.1 (List.mem_cons_of_mem e hymem) hye
            rw [hym] at this
            simpa [prefixLenOf] using le_of_lt this
        simp only [betterOf, Option.some.injEq]
        rw [if_neg (by omega)]
    · have hrest : bestMatch s rest = some (e, n, cap) :=
        ih hmemr hm (fun q hq hqe => hmax q (List.mem_cons_of_mem a hq) hqe)
      rcases hma : matchesP a.1 s with _ | ⟨m, c⟩
      · simp only [bestMatch, hma]
        exact hrest
      · by_cases hae : a = e
        · subst hae
          rw [hma] at hm
          obtain ⟨rfl, rfl⟩ := Pattern.Match.injEq .. ▸ hm
          simp only [bestMatch, hma, hrest, betterOf, Option.some.injEq]
          rw [if_neg (lt_irrefl m)]
        · have hlt : m < n := by
            have := hmax a (List.mem_cons_self a rest) hae
            rwa [hma] at this
          simp only [bestMatch, hma, hrest, betterOf, Option.some.injEq]
          rw [if_pos hlt]

/-!
Claim theorems.
-/

/-- C5: the empty pattern matches no input at all (the empty input included),
and the pattern consisting of a single star matches every non-empty input,
capturing the whole input, while it does not match the empty input. -/
theorem c5_empty_pattern_and_star (input : Str) :
    matchesP [] input = Pattern.NoMatch ∧
    (input ≠ [] → matchesP ['*'] input = Pattern.Match 1 (some input)) ∧
    matchesP ['*'] [] = Pattern.NoMatch := by
  refine ⟨?_, ?_, by decide⟩
  · by_cases h : input = []
    · subst h; decide
    · have h2 : ¬(([] : Str) = input) := fun he => h he.symm
      simp [matchesP, splitFirstStar, h, h2]
  · intro h
    have hsp : splitFirstStar ['*'] = some ([], []) := by decide
    simp only [matchesP, hsp, if_neg h]
    rw [if_pos ⟨ List.nil_prefix, List.nil_suffix, by simp⟩]
    have h1 : utf8Len ['*'] = 1 := by decide
    rw [h1]
    congr 2
    simp

/-- C5 witness: the theorem instantiated at the concrete input `a`. -/
theorem c5_empty_pattern_and_star_witness :
    matchesP [] "a".data = Pattern.NoMatch ∧
    matchesP ['*'] "a".data = Pattern.Match 1 (some "a".data) ∧
    matchesP ['*'] [] = Pattern.NoMatch :=
  ⟨(c5_empty_pattern_and_star "a".data).1,
   (c5_empty_pattern_and_star "a".data).2.1 (by decide),
   (c5_empty_pattern_and_star "a".data).2.2⟩

/-- C6: pattern matching is codepoint-correct even when capture codepoints
share leading UTF-8 bytes with head and tail: matching `#á/*é.js` against
`#á/asdáé.js` succeeds and captures exactly `asdá` (the byte-level
`prefix_len` of the pattern being its UTF-8 size). -/
theorem c6_unicode_codepoint_capture :
    matchesP "#á/*é.js".data "#á/asdáé.js".data =
      Pattern.Match (utf8Len "#á/*é.js".data) (some "asdá".data) ∧
    utf8Len "#á/*é.js".data = 10 := by
  constructor <;> decide

/-- C4 (amended): round-trip of substitution and matching: for every pattern
containing a star and every capture such that substituting the capture into
the pattern yields a non-empty string, matching the pattern against the
substituted string succeeds with exactly that capture.  (The sole exception,
excluded by the non-emptiness hypothesis, is the pattern `*` with the empty
capture, whose substitution is the empty input, which never matches.) -/
theorem c4_roundtrip (pattern capture : Str) (hstar : '*' ∈ pattern)
    (hne : substituteP pattern capture ≠ []) :
    matchesP pattern (substituteP pattern capture) =
      Pattern.Match (utf8Len pattern) (some capture) := by
  obtain ⟨h, t, hsplit, _⟩ := splitFirstStar_spec hstar
  have hsub : substituteP pattern capture = h ++ capture ++ t := by
    simp [substituteP, hsplit]
  rw [hsub] at hne ⊢
  have hpre : h <+: h ++ capture ++ t := by
    rw [List.append_assoc]
    exact List.prefix_append h (capture ++ t)
  have hsuf : t <:+ h ++ capture ++ t := List.suffix_append (h ++ capture) t
  have hlen : h.length + t.length ≤ (h ++ capture ++ t).length := by
    simp [List.length_append]
  have hcap : ((h ++ capture ++ t).take ((h ++ capture ++ t).length - t.length)).drop
      h.length = capture := by
    have h1 : (h ++ capture ++ t).length - t.length = (h ++ capture).length := by
      simp [List.length_append]
      omega
    rw [h1, List.take_left, List.drop_left]
  simp only [matchesP, hsplit, if_neg hne]
  rw [if_pos ⟨hpre, hsuf, hlen⟩, hcap]

/-- C4 witness: the amended round-trip at the pattern `#lib/*` and the
capture `x`. -/
theorem c4_roundtrip_witness :
    matchesP "#lib/*".data (substituteP "#lib/*".data "x".data) =
      Pattern.Match (utf8Len "#lib/*".data) (some "x".data) :=
  c4_roundtrip "#lib/*".data "x".data (by decide) (by decide)

/-- C4 counterexample: the claim as stated fails for the pattern `*` with the
empty capture: the substituted input is the empty string, and matching the
pattern `*` against it yields `NoMatch`, not a `Match` recovering the empty
capture. -/
theorem c4_roundtrip_counterexample :
    matchesP "*".data (substituteP "*".data "".data) = Pattern.NoMatch := by decide

/-- C3: when one pattern entry matches the specifier with a strictly greater
`prefix_len` than every other entry, the resolver uses only the replacements
of that entry: `imports_from_patterns` returns exactly its resolved
replacements. -/
theorem c3_longest_pattern_wins (anchor : Str) (patterns : List PatternEntry) (s : Str)
    (e : PatternEntry) (n : Nat) (cap : Option Str)
    (he : e ∈ patterns) (hm : matchesP e.1 s = Pattern.Match n cap)
    (hmax : ∀ q ∈ patterns, q ≠ e → prefixLenOf (matchesP q.1 s) < n) :
    imports_from_patterns anchor patterns s = e.2.map (resolveRepl anchor cap) := by
  have hb : bestMatch s patterns = some (e, n, cap) := bestMatch_eq_of s he hm hmax
  simp [imports_from_patterns, hb]

/-- C3 witness: with the patterns `#internal/stuff/*.js → ./src/stuff/*.js`
and `#internal/*.js → ./src/things/*.js`, the specifier
`#internal/stuff/index.js` resolves only through the longer pattern, to
`./src/stuff/index.js` joined to the anchor `dir`. -/
theorem c3_longest_pattern_wins_witness :
    imports_from_patterns "dir".data
      [("#internal/stuff/*.js".data, ["./src/stuff/*.js".data]),
       ("#internal/*.js".data, ["./src/things/*.js".data])]
      "#internal/stuff/index.js".data = [Import.Matched "dir/src/stuff/index.js".data] := by
  have h := c3_longest_pattern_wins "dir".data
    [("#internal/stuff/*.js".data, ["./src/stuff/*.js".data]),
     ("#internal/*.js".data, ["./src/things/*.js".data])]
    "#internal/stuff/index.js".data
    ("#internal/stuff/*.js".data, ["./src/stuff/*.js".data]) 20 (some "index".data)
    (by decide) (by decide) (by decide)
  rw [h]
  decide

/-- C2: pragma suppression keys on the attachment line, and on nothing else:
an import or export declaration is suppressed exactly when the pragma sits on
the line of its `from` clause, and a dynamic `import`/`require` call exactly
when the pragma sits on the line of its closing parenthesis; the start line of
the construct (and hence any other line it spans) is irrelevant. -/
theorem c2_pragma_attachment_line (lines : List Str) (m : Str) (sL fL cL : Nat) :
    (collectF { lines := lines, nodes := [AstNode.importDecl (some m) sL fL] } =
      if pragmaIndex lines fL then [] else [m]) ∧
    (collectF { lines := lines, nodes := [AstNode.exportDecl (some m) sL fL] } =
      if pragmaIndex lines fL then [] else [m]) ∧
    (collectF { lines := lines
                nodes := [AstNode.callExpr Callee.importCall (CallArg.stringLit m) sL cL] } =
      if pragmaIndex lines cL then [] else [m]) ∧
    (collectF { lines := lines
                nodes := [AstNode.callExpr Callee.requireCall (CallArg.stringLit m) sL cL] } =
      if pragmaIndex lines cL then [] else [m]) := by
  refine ⟨?_, ?_, ?_, ?_⟩
  · by_cases hp : pragmaIndex lines fL <;> simp [collectF, emits, hp]
  · by_cases hp : pragmaIndex lines fL <;> simp [collectF, emits, hp]
  · by_cases hp : pragmaIndex lines cL <;> simp [collectF, emits, hp]
  · by_cases hp : pragmaIndex lines cL <;> simp [collectF, emits, hp]

/-- C9: the collector emits nothing for a call whose argument is not a string
literal, nothing for any new-expression, and nothing for a call to a callee
other than `import`/`require`; such constructs are silently dropped. -/
theorem c9_nonliteral_and_new_ignored (lines : List Str) (k : Callee) (arg : CallArg)
    (name : Str) (sL cL : Nat) :
    collectF { lines := lines, nodes := [AstNode.callExpr k CallArg.nonLiteral sL cL] } = [] ∧
    collectF { lines := lines, nodes := [AstNode.newExpr k arg sL cL] } = [] ∧
    collectF { lines := lines, nodes := [AstNode.callExpr (Callee.other name) arg sL cL] } = [] := by
  refine ⟨?_, ?_, ?_⟩
  · cases k <;> simp [collectF, emits]
  · cases k <;> cases arg <;> simp [collectF, emits]
  · cases arg <;> simp [collectF, emits]

/-- C1 (amended): for a bare specifier `s` collected from the source, `s`
itself appears among its package candidates exactly when the subpath resolver
leaves `s` unmatched: either no `import_patterns` pattern matched `s` (then
the raw specifier is kept as a package fallback, whether or not a path-alias
pattern matched), or the winning `import_patterns` pattern has a bare
replacement that substitutes to `s` itself.  Whether a path-alias (`paths`)
pattern matched is irrelevant to this membership. -/
theorem c1_raw_specifier_membership (f : SourceFile) (filePath : Str) (md : Metadata)
    (s : Str) (hv : validMetadata md = true) (hs : s ∈ collectF f)
    (hb : isRelative s = false) :
    ∃ out, get_dependencies f filePath md = Except.ok out ∧
      ∃ info, lookupStr s out = some info ∧
        (s ∈ info.package_imports ↔
          Import.Unmatched s ∈ imports_from_patterns md.package_root md.import_patterns s) := by
  obtain ⟨h1, h2⟩ := getDeps_ok f filePath md s hv hs
  refine ⟨_, h1, _, h2, ?_⟩
  have hf : inferFor filePath md s = inferBare md s := by simp [inferFor, hb]
  rw [hf, inferBare, partition_package_mem]
  rcases hbm : bestMatch s md.import_patterns with _ | x
  · simp [resolveBareImports, imports_from_patterns, hbm, List.mem_dedup]
  · obtain ⟨e, n, cap⟩ := x
    simp [resolveBareImports, imports_from_patterns, hbm]

/-- C1 witness: the amended membership applied to the source `import stuff
from lib/stuff` of the file `js/project/src/lib/index.js` under the metadata
of the `config_file_import` test: no subpath pattern matches `lib/stuff`, so
the raw specifier is a package candidate. -/
theorem c1_raw_specifier_membership_witness :
    ∃ out, get_dependencies
        { lines := ["import stuff from lib/stuff".data]
          nodes := [AstNode.importDecl (some "lib/stuff".data) 1 1] }
        "js/project/src/lib/index.js".data mdCfg = Except.ok out ∧
      ∃ info, lookupStr "lib/stuff".data out = some info ∧
        ("lib/stuff".data ∈ info.package_imports ↔
          Import.Unmatched "lib/stuff".data ∈
            imports_from_patterns mdCfg.package_root mdCfg.import_patterns "lib/stuff".data) :=
  c1_raw_specifier_membership
    { lines := ["import stuff from lib/stuff".data]
      nodes := [AstNode.importDecl (some "lib/stuff".data) 1 1] }
    "js/project/src/lib/index.js".data mdCfg "lib/stuff".data
    (by decide) (by decide) (by decide)

/-- C1 counterexample: the claimed equivalence `s ∈ package_imports[s] iff at
least one path-alias pattern matched s` fails in both directions.  With empty
metadata, `fs` is its own package candidate although no path-alias pattern
matched it; and under the metadata of the
`candidate_imports_from_config_and_imports` test, the alias pattern `*`
matches `#nested/index.js`, yet the raw specifier is not among its package
candidates because a subpath pattern matched. -/
theorem c1_raw_specifier_membership_counterexample :
    ("fs".data ∈ (inferFor "src/js/index.mjs".data mdEmpty "fs".data).package_imports ∧
      anyMatch mdEmpty.paths "fs".data = false) ∧
    ("#nested/index.js".data ∉
        (inferFor "js/project/src/lib/index.js".data mdBoth "#nested/index.js".data).package_imports ∧
      anyMatch mdBoth.paths "#nested/index.js".data = true) := by
  refine ⟨⟨?_, by decide⟩, ⟨?_, by decide⟩⟩ <;> decide

/-- C7: a relative specifier whose normalization against the directory of the importing file
directory rises above the workspace root does not make `get_dependencies`
fail: the specifier string is recorded unchanged (original `../` form
preserved) as the sole file candidate, with no package candidates. -/
theorem c7_escape_passthrough (f : SourceFile) (filePath : Str) (md : Metadata) (s : Str)
    (hv : validMetadata md = true) (hs : s ∈ collectF f) (hrel : isRelative s = true)
    (hesc : collapse [] ((dirSegs filePath ++ splitSegs s).filter keepSeg) = none) :
    ∃ out, get_dependencies f filePath md = Except.ok out ∧
      lookupStr s out = some { file_imports := [s], package_imports := [] } := by
  obtain ⟨h1, h2⟩ := getDeps_ok f filePath md s hv hs
  refine ⟨_, h1, ?_⟩
  rw [h2]
  simp [inferFor, hrel, inferRelative, hesc, -List.filter_append]

/-- C7 witness: the file `src/index.mjs` importing `../../xes.mjs`, which
escapes the workspace root, passes the specifier through unchanged. -/
theorem c7_escape_passthrough_witness :
    ∃ out, get_dependencies
        { lines := ["import x from ../../xes.mjs".data]
          nodes := [AstNode.importDecl (some "../../xes.mjs".data) 1 1] }
        "src/index.mjs".data mdEmpty = Except.ok out ∧
      lookupStr "../../xes.mjs".data out =
        some { file_imports := ["../../xes.mjs".data], package_imports := [] } :=
  c7_escape_passthrough
    { lines := ["import x from ../../xes.mjs".data]
      nodes := [AstNode.importDecl (some "../../xes.mjs".data) 1 1] }
    "src/index.mjs".data mdEmpty "../../xes.mjs".data
    (by decide) (by decide) (by decide) (by decide)

/-- C8: with empty `import_patterns` and empty `paths`, every collected bare
specifier `s` yields exactly the package candidate set `{s}` and no file
candidates. -/
theorem c8_empty_metadata_bare (f : SourceFile) (filePath : Str) (md : Metadata) (s : Str)
    (hip : md.import_patterns = []) (hp : md.paths = [])
    (hs : s ∈ collectF f) (hb : isRelative s = false) :
    ∃ out, get_dependencies f filePath md = Except.ok out ∧
      lookupStr s out = some { file_imports := [], package_imports := [s] } := by
  have hv : validMetadata md = true := by simp [validMetadata, hip, hp]
  obtain ⟨h1, h2⟩ := getDeps_ok f filePath md s hv hs
  refine ⟨_, h1, ?_⟩
  rw [h2]
  have hres : resolveBareImports md s = [Import.Unmatched s] := by
    simp [resolveBareImports, hip, imports_from_patterns, hp, bestMatch]
  simp [inferFor, hb, inferBare, hres, partitionImports]

/-- C8 witness: the file `src/js/index.mjs` importing `fs` under empty
metadata yields the sole package candidate `fs`. -/
theorem c8_empty_metadata_bare_witness :
    ∃ out, get_dependencies
        { lines := ["import fs from fs".data]
          nodes := [AstNode.importDecl (some "fs".data) 1 1] }
        "src/js/index.mjs".data mdEmpty = Except.ok out ∧
      lookupStr "fs".data out =
        some { file_imports := [], package_imports := ["fs".data] } :=
  c8_empty_metadata_bare
    { lines := ["import fs from fs".data]
      nodes := [AstNode.importDecl (some "fs".data) 1 1] }
    "src/js/index.mjs".data mdEmpty "fs".data rfl rfl (by decide) (by decide)

/-- C10: when the path of the importing file has no directory component, a
relative specifier `./name` (with `name` a plain segment) resolves to the
bare candidate `name`: no directory prefix and no leading `./` remain. -/
theorem c10_root_level_no_dir (f : SourceFile) (filePath : Str) (md : Metadata)
    (name : Str) (hv : validMetadata md = true)
    (hfp : '/' ∉ filePath) (hn : '/' ∉ name)
    (h0 : name ≠ []) (h1 : name ≠ ['.']) (h2 : name ≠ ['.', '.'])
    (hs : ('.' :: '/' :: name) ∈ collectF f) :
    ∃ out, get_dependencies f filePath md = Except.ok out ∧
      lookupStr ('.' :: '/' :: name) out =
        some { file_imports := [name], package_imports := [] } := by
  obtain ⟨hok, hlk⟩ := getDeps_ok f filePath md _ hv hs
  refine ⟨_, hok, ?_⟩
  rw [hlk]
  have hdir : dirSegs filePath = [] := by
    simp [dirSegs, splitSegs_no_slash hfp]
  have hmid : splitSegs ('/' :: name) = [[], name] := by
    rw [splitSegs_cons_slash, splitSegs_no_slash hn]
  have hsegs : splitSegs ('.' :: '/' :: name) = [['.'], name] := by
    simp [splitSegs, hmid, splitSegs_no_slash hn]
  have hkeep : keepSeg name = true := by
    rw [keepSeg]
    exact decide_eq_true ⟨h0, h1⟩
  have hkdot : keepSeg ['.'] = false := by decide
  have hfilter : ((dirSegs filePath ++ splitSegs ('.' :: '/' :: name)).filter keepSeg) =
      [name] := by
    rw [hdir, hsegs]
    simp [List.filter_cons, hkeep, hkdot]
  have hcol : collapse [] [name] = some [name] := by
    simp [collapse, h2]
  simp [inferFor, isRelative, inferRelative, hfilter, hcol, joinSegs]

/-- C10 witness: the workspace-root file `index.mjs` importing `./file.js`
resolves to the bare candidate `file.js`. -/
theorem c10_root_level_no_dir_witness :
    ∃ out, get_dependencies
        { lines := ["import a from ./file.js".data]
          nodes := [AstNode.importDecl (some "./file.js".data) 1 1] }
        "index.mjs".data mdEmpty = Except.ok out ∧
      lookupStr "./file.js".data out =
        some { file_imports := ["file.js".data], package_imports := [] } :=
  c10_root_level_no_dir
    { lines := ["import a from ./file.js".data]
      nodes := [AstNode.importDecl (some "./file.js".data) 1 1] }
    "index.mjs".data mdEmpty "file.js".data
    (by decide) (by decide) (by decide) (by decide) (by decide) (by decide) (by decide)

end DepInference
